import Mathlib

/-
Verification of the Message-Organizer service (src/app.py) against its
natural-language specification.  The Python source is shallowly embedded:
pure helpers become Lean functions, the JSON config file and the JSONL
message ledger become explicit data types, and the per-minute scheduler
tick becomes a state-transition function on the per-conversation config.
-/

set_option maxHeartbeats 1000000

namespace MsgOrg

/-- A JSON value found in a config's "keywords" array, as far as the code
inspects one: the `isinstance(k, str)` test only distinguishes strings
from everything else. -/
inductive KwVal where
  | str (s : String)
  | nonstr
deriving DecidableEq, Repr

/-- In-memory conversation config dict as produced by `load_cfg`: after the
three `setdefault` calls the keys "keywords", "daily_time" and
"last_daily_run" are always present.  `daily_time` and `last_daily_run`
are JSON null (`none`) or a string. -/
structure CfgDict where
  keywords : List KwVal
  daily_time : Option String
  last_daily_run : Option String
deriving DecidableEq, Repr

/-- State of `configs/<chat_id>.json` on disk, as far as `load_cfg`
distinguishes it: the file may be absent, unreadable / not valid JSON /
not a JSON dict, or a dict in which each of the three keys is either
absent or present with a value. -/
inductive StoredCfg where
  | missing
  | corrupt
  | dict (keywords : Option (List KwVal)) (daily_time : Option (Option String))
      (last_daily_run : Option (Option String))
deriving DecidableEq, Repr

/-- `load_cfg` (src/app.py lines 138-155): a missing file yields the
default dict; an unreadable / unparseable / non-dict file yields `{}`;
then each of the three keys is `setdefault`-ed.  The function is total:
no stored state makes it raise. -/
def load_cfg : StoredCfg → CfgDict
  | .missing => { keywords := [], daily_time := none, last_daily_run := none }
  | .corrupt => { keywords := [], daily_time := none, last_daily_run := none }
  | .dict kw dt lr =>
      { keywords := kw.getD [], daily_time := dt.getD none, last_daily_run := lr.getD none }

/-- Python's `str.strip()`: drop leading and trailing whitespace.
Implemented on the character list so it evaluates inside the kernel. -/
def pyStrip (s : String) : String :=
  String.mk (((s.data.dropWhile Char.isWhitespace).reverse.dropWhile Char.isWhitespace).reverse)

/-- ASCII lowercase of one character (Python's `str.lower()` restricted to
ASCII, which is all the comparison key in the code needs). -/
def lowerChar (c : Char) : Char :=
  if 65 ≤ c.toNat && c.toNat ≤ 90 then Char.ofNat (c.toNat + 32) else c

/-- Python's `str.lower()`. -/
def strLower (s : String) : String := String.mk (s.data.map lowerChar)

/-- Lexicographic `≤` on char lists. -/
def charsLe : List Char → List Char → Bool
  | [], _ => true
  | _ :: _, [] => false
  | x :: xs, y :: ys => if x < y then true else if y < x then false else charsLe xs ys

/-- Lexicographic `≤` on strings. -/
def strLe (a b : String) : Bool := charsLe a.data b.data

/-- Join a list of strings with a separator (Python's `sep.join(xs)`). -/
def joinSep (sep : String) : List String → String
  | [] => ""
  | [x] => x
  | x :: y :: rest => x ++ sep ++ joinSep sep (y :: rest)

/-- Whether `needle` is a leading run of `hay`, on char lists. -/
def charsPre : List Char → List Char → Bool
  | [], _ => true
  | _ :: _, [] => false
  | x :: xs, y :: ys => x = y && charsPre xs ys

/-- Whether `needle` occurs contiguously in `hay`, on char lists. -/
def charsSub (needle : List Char) : List Char → Bool
  | [] => charsPre needle []
  | y :: ys => charsPre needle (y :: ys) || charsSub needle ys

/-- Python's `kw in t` substring test on strings. -/
def strContains (t kw : String) : Bool := charsSub kw.data t.data

/-- `normalize_keyword` (line 182). -/
def normalize_keyword (k : String) : String := pyStrip k

/-- The list comprehension at lines 216-220: keep only string entries with
non-blank content, normalized. -/
def kwStrings (ks : List KwVal) : List String :=
  ks.filterMap fun k =>
    match k with
    | .str s => if pyStrip s = "" then none else some (normalize_keyword s)
    | .nonstr => none

/-- Insertion step of a stable sort keyed on the lowercase form, modelling
`sorted(..., key=lambda x: x.lower())` at line 221. -/
def insertLower (x : String) : List String → List String
  | [] => [x]
  | y :: ys => if strLe (strLower x) (strLower y) then x :: y :: ys else y :: insertLower x ys

/-- Stable sort by lowercase key. -/
def sortLower (xs : List String) : List String := xs.foldr insertLower []

/-- Deduplicate keeping first occurrences (the image of building a `set`
and re-listing it, with a fixed, deterministic order). -/
def dedupAux : List String → List String → List String
  | [], _ => []
  | x :: xs, seen => if seen.contains x then dedupAux xs seen else x :: dedupAux xs (x :: seen)

/-- Deduplicate a keyword list, first occurrence wins. -/
def dedupFirst (xs : List String) : List String := dedupAux xs []

/-- `keywords = sorted(set(...), key=lambda x: x.lower())` (line 221):
deduplicate, then sort by lowercase key. -/
def processedKeywords (ks : List KwVal) : List String := sortLower (dedupFirst (kwStrings ks))

/-- Character class of the first substitution in `safe_filename_keyword`
(line 191). -/
def hostileChar (c : Char) : Bool :=
  c = '\\' || c = '/' || c = ':' || c = '*' || c = '?' || c = '\"' || c = '<' || c = '>' || c = '|'

/-- One pass of `re.sub(r"[class]+", "_", k)`: every maximal run of
characters satisfying `p` collapses to a single underscore.  The boolean
argument records whether the previous character was in a run. -/
def collapseRuns (p : Char → Bool) : List Char → Bool → List Char
  | [], _ => []
  | c :: rest, inRun =>
    if p c then
      if inRun then collapseRuns p rest true
      else '_' :: collapseRuns p rest true
    else c :: collapseRuns p rest false

/-- `safe_filename_keyword` (lines 186-193): strip, replace runs of
path-hostile characters with `_`, replace whitespace runs with `_`,
truncate to 50 characters. -/
def safe_filename_keyword (k : String) : String :=
  let k1 := pyStrip k
  let k2 := String.mk (collapseRuns hostileChar k1.data false)
  let k3 := String.mk (collapseRuns (fun c => c.isWhitespace) k2.data false)
  if k3.data.length > 50 then String.mk (k3.data.take 50) else k3

/-- `make_public_url` (lines 196-200).  `base_url` is the environment
value after `rstrip("/")`; an empty value means no public URL.  A
non-empty `file_token` is appended as a static `?token=` query. -/
def make_public_url (base_url file_token relpath : String) : Option String :=
  if base_url = "" then none
  else some (base_url ++ "/files/" ++ relpath ++
    (if file_token = "" then "" else "?token=" ++ file_token))

/-- One line of a `logs/<chat_id>/<day>.jsonl` partition, as far as the
reader at lines 237-248 distinguishes it: blank or unparseable lines are
skipped; a parsed line contributes `str(obj.get("text", ""))`. -/
inductive LogLine where
  | malformed
  | record (text : String)
deriving DecidableEq, Repr

/-- The ledger read-back loop (lines 237-248): collect the stripped text
of each well-formed line, skipping blanks and malformed lines. -/
def readTexts : List LogLine → List String
  | [] => []
  | .malformed :: rest => readTexts rest
  | .record t :: rest =>
    let s := pyStrip t
    if s = "" then readTexts rest else s :: readTexts rest

/-- `matched_lines` for one keyword (line 262): the sublist of the day's
texts containing the keyword, in original order, duplicates kept. -/
def matchedLines (texts : List String) (kw : String) : List String :=
  texts.filter (fun t => strContains t kw)

/-- Artifact file name (line 268): `{YYYYMMDD}_{sanitized keyword}_{chat_id}.txt`,
a deterministic function of the compact date, the keyword and the chat id. -/
def artifact_filename (ymdC kw chat_id : String) : String :=
  ymdC ++ "_" ++ safe_filename_keyword kw ++ "_" ++ chat_id ++ ".txt"

/-- One artifact descriptor as appended to `outputs` (lines 277-284). -/
structure OutputEntry where
  keyword : String
  out_path : String
  relpath : String
  url : Option String
deriving DecidableEq, Repr

/-- The per-keyword loop of `summarize_today_per_keyword` (lines 261-284):
for each keyword with at least one matching text, produce its descriptor
together with the file write `(out_path, content)` performed at line 272,
where the content is the newline-join of the matched lines plus a
trailing newline. -/
def keywordOutputs (texts : List String) (ym ymdC chat_id base_url file_token out_dir : String)
    (keywords : List String) : List (OutputEntry × String × String) :=
  keywords.filterMap fun kw =>
    let ml := matchedLines texts kw
    if ml = [] then none
    else
      let filename := artifact_filename ymdC kw chat_id
      let out_path := out_dir ++ "/" ++ ym ++ "/" ++ filename
      let rel := ym ++ "/" ++ filename
      some (⟨kw, out_path, rel, make_public_url base_url file_token rel⟩,
        out_path, joinSep "\n" ml ++ "\n")

/-- The `(ok, summary, outputs)` tuple returned by
`summarize_today_per_keyword`, extended with the list of file writes the
call performs (write order = keyword order; a rerun redoes the same
writes). -/
structure RunResult where
  ok : Bool
  summary : String
  outputs : List OutputEntry
  writes : List (String × String)
deriving DecidableEq, Repr

/-- The user-facing hint returned when no keywords are configured
(lines 223-228). -/
def noKeywordsHint : String :=
  "尚未設定關鍵字。\n\n請先輸入：\n請輸入：設定關鍵字 你的關鍵字\n例如：設定關鍵字 日報表"

/-- The message for a day with no logged messages (lines 233 and 252). -/
def noLogMsg (day : String) : String := "今天（" ++ day ++ "）尚無紀錄訊息可整理。"

/-- One bullet of the final summary (lines 304-310). -/
def summaryLine (o : OutputEntry) : String :=
  match o.url with
  | some u => "- " ++ o.keyword ++ "：" ++ u
  | none => "- " ++ o.keyword ++ "：" ++ o.out_path ++ "（未設定 PUBLIC_BASE_URL，無法產生連結）"

/-- `summarize_today_per_keyword` (lines 206-312).  Inputs that the Python
function reads from the environment are passed explicitly: the loaded
config, the day's ledger partition (`none` when the file does not
exist), the date strings, the chat id, `PUBLIC_BASE_URL`, `FILE_TOKEN`
and the exports directory. -/
def summarize_today_per_keyword (cfg : CfgDict) (log : Option (List LogLine)) (manual : Bool)
    (day ym ymdC chat_id base_url file_token out_dir : String) : RunResult :=
  let keywords := processedKeywords cfg.keywords
  if keywords = [] then ⟨false, noKeywordsHint, [], []⟩
  else
    match log with
    | none => ⟨true, noLogMsg day, [], []⟩
    | some lines =>
      let texts := readTexts lines
      let total := texts.length
      if total = 0 then ⟨true, noLogMsg day, [], []⟩
      else
        let kwOuts := keywordOutputs texts ym ymdC chat_id base_url file_token out_dir keywords
        let outputs := kwOuts.map (fun e => e.1)
        let writes := kwOuts.map (fun e => e.2)
        let mode := if manual then "手動" else "自動"
        if outputs = [] then
          ⟨true, mode ++ "整理完成 ✅\n日期：" ++ day ++ "\n共 " ++ toString total ++
            " 則訊息，但沒有任何關鍵字命中。\n目前關鍵字：" ++
            joinSep ", " keywords, [], []⟩
        else
          ⟨true, joinSep "\n"
            ([mode ++ "整理完成 ✅", "日期：" ++ day, "總訊息：" ++ toString total ++ " 則", "",
              "已輸出檔案（每關鍵字一份）："] ++ outputs.map summaryLine), outputs, writes⟩

/-- Apply a sequence of file writes to a filesystem (path → contents);
`write_text` replaces the full contents of the target path. -/
def applyWrites (fs : String → Option String) : List (String × String) → String → Option String
  | [] => fs
  | (p, c) :: rest => applyWrites (fun q => if q = p then some c else fs q) rest

/-- Effect of one `summarize_today_per_keyword` call on the export
filesystem. -/
def runExportFS (cfg : CfgDict) (log : Option (List LogLine)) (manual : Bool)
    (day ym ymdC chat_id base_url file_token out_dir : String)
    (fs : String → Option String) : String → Option String :=
  applyWrites fs
    (summarize_today_per_keyword cfg log manual day ym ymdC chat_id base_url file_token out_dir).writes

/-- Accumulator pass for `splitSlash`. -/
def splitSlashAux : List Char → List Char → List String
  | [], acc => [String.mk acc.reverse]
  | c :: rest, acc =>
    if c = '/' then String.mk acc.reverse :: splitSlashAux rest []
    else splitSlashAux rest (c :: acc)

/-- Split a relative URL path on slashes (`Path` segment view). -/
def splitSlash (s : String) : List String := splitSlashAux s.data []

/-- Whether the string begins with a slash (an absolute POSIX path). -/
def startsSlash (s : String) : Bool :=
  match s.data with
  | '/' :: _ => true
  | _ => false

/-- Python's `str(a).startswith(str(b))` test: `p` is a string prefix of `s`. -/
def strIsPre (p s : String) : Bool := charsPre p.data s.data

/-- Resolve dot segments against a canonical absolute directory given as a
segment list, as `Path.resolve()` does lexically: `""` and `"."` vanish,
`".."` pops one segment (the root is its own parent). -/
def normSegs : List String → List String → List String
  | base, [] => base
  | base, seg :: rest =>
    if seg = "" || seg = "." then normSegs base rest
    else if seg = ".." then normSegs base.dropLast rest
    else normSegs (base ++ [seg]) rest

/-- `(OUT_DIR / relpath).resolve()` (line 524): an absolute `relpath`
replaces the base, otherwise the joined path is canonicalized. -/
def resolve_path (out_dir : List String) (relpath : String) : List String :=
  if startsSlash relpath then normSegs [] (splitSlash relpath)
  else normSegs out_dir (splitSlash relpath)

/-- `str(path)` for an absolute path given as segments. -/
def pathStr (segs : List String) : String :=
  if segs = [] then "/" else segs.foldl (fun acc s => acc ++ "/" ++ s) ""

/-- Segment-wise containment: the target path lies inside (or is) the
directory `base`: the real notion of "inside the export root". -/
def segPre : List String → List String → Bool
  | [], _ => true
  | _ :: _, [] => false
  | b :: bs, t :: ts => b = t && segPre bs ts

/-- Status outcomes of the `/files/<path>` route. -/
inductive HttpResponse where
  | ok (body : String)
  | badRequest
  | forbidden
  | notFound
deriving DecidableEq, Repr

/-- The post-token part of `download_file` (lines 523-533): canonicalize,
reject when `str(target)` does not start with `str(base)` (string
prefix, no separator appended), then serve the file if it exists. -/
def serve_target (out_dir : List String) (relpath : String)
    (fs : List String → Option String) : HttpResponse :=
  if strIsPre (pathStr out_dir) (pathStr (resolve_path out_dir relpath)) = false then
    HttpResponse.badRequest
  else
    match fs (resolve_path out_dir relpath) with
    | some body => HttpResponse.ok body
    | none => HttpResponse.notFound

/-- `download_file` (lines 512-533).  `fs` maps a canonical path to the
contents of an existing regular file, `none` otherwise. -/
def download_file (file_token : String) (out_dir : List String) (relpath : String)
    (tokenArg : String) (fs : List String → Option String) : HttpResponse :=
  if file_token ≠ "" then
    if tokenArg ≠ file_token then HttpResponse.forbidden
    else serve_target out_dir relpath fs
  else serve_target out_dir relpath fs

/-- Outcome of one scheduler visit to one conversation. -/
structure TickOutcome where
  fired : Bool
  cfg : CfgDict
  result : Option RunResult
deriving DecidableEq, Repr

/-- Per-conversation body of `tick_daily_scheduler` (lines 781-818): skip
when `daily_time` is null or empty, skip when the tick's HH:MM differs
from `daily_time`, skip when `last_daily_run` equals today; otherwise
run the export and record `last_daily_run = today`. -/
def tick_daily_conv (cfg : CfgDict) (log : Option (List LogLine))
    (now_hhmm today ym ymdC chat_id base_url file_token out_dir : String) : TickOutcome :=
  match cfg.daily_time with
  | none => ⟨false, cfg, none⟩
  | some t =>
    if t = "" then ⟨false, cfg, none⟩
    else if t ≠ now_hhmm then ⟨false, cfg, none⟩
    else if cfg.last_daily_run = some today then ⟨false, cfg, none⟩
    else
      ⟨true, { cfg with last_daily_run := some today },
        some (summarize_today_per_keyword cfg log false today ym ymdC chat_id base_url
          file_token out_dir)⟩

/-- Run a sequence of scheduler ticks (their HH:MM values) over one
conversation within a single calendar day, counting how many fired. -/
def runTicks (log : Option (List LogLine))
    (today ym ymdC chat_id base_url file_token out_dir : String) :
    CfgDict → List String → Nat × CfgDict
  | cfg, [] => (0, cfg)
  | cfg, h :: rest =>
    ((if (tick_daily_conv cfg log h today ym ymdC chat_id base_url file_token out_dir).fired
        then 1 else 0) +
      (runTicks log today ym ymdC chat_id base_url file_token out_dir
        (tick_daily_conv cfg log h today ym ymdC chat_id base_url file_token out_dir).cfg rest).1,
     (runTicks log today ym ymdC chat_id base_url file_token out_dir
        (tick_daily_conv cfg log h today ym ymdC chat_id base_url file_token out_dir).cfg rest).2)

/-! ### Helper lemmas -/

/-- A path not written by a run keeps its previous contents. -/
lemma applyWrites_not_mem (ws : List (String × String)) :
    ∀ (fs : String → Option String) (q : String), q ∉ ws.map Prod.fst →
      applyWrites fs ws q = fs q := by
  induction ws with
  | nil => intro fs q _; rfl
  | cons e rest ih =>
    intro fs q hq
    obtain ⟨p, c⟩ := e
    simp only [List.map_cons, List.mem_cons, not_or] at hq
    simp only [applyWrites]
    rw [ih _ _ hq.2]
    simp [hq.1]

/-- A path written by a run ends with contents independent of the previous
filesystem state. -/
lemma applyWrites_mem (ws : List (String × String)) :
    ∀ (fs fs' : String → Option String) (q : String), q ∈ ws.map Prod.fst →
      applyWrites fs ws q = applyWrites fs' ws q := by
  induction ws with
  | nil => intro fs fs' q h; simp at h
  | cons e rest ih =>
    intro fs fs' q hq
    obtain ⟨p, c⟩ := e
    by_cases hr : q ∈ rest.map Prod.fst
    · exact ih _ _ _ hr
    · have hqp : q = p := by
        simp only [List.map_cons, List.mem_cons] at hq
        tauto
      simp only [applyWrites]
      rw [applyWrites_not_mem rest _ _ hr, applyWrites_not_mem rest _ _ hr]
      simp [hqp]

/-- The post-token branch of the route never answers 403. -/
lemma serve_target_ne_forbidden (out_dir : List String) (relpath : String)
    (fs : List String → Option String) :
    serve_target out_dir relpath fs ≠ HttpResponse.forbidden := by
  unfold serve_target
  split
  · exact fun h => HttpResponse.noConfusion h
  · split
    · exact fun h => HttpResponse.noConfusion h
    · exact fun h => HttpResponse.noConfusion h

/-- A scheduler visit fires exactly when the tick's HH:MM equals a
non-empty configured daily_time and today is not yet marked done. -/
lemma tick_fired_iff (cfg : CfgDict) (log : Option (List LogLine))
    (now today ym ymdC cid burl ftok outd : String) :
    (tick_daily_conv cfg log now today ym ymdC cid burl ftok outd).fired = true
      ↔ (cfg.daily_time = some now ∧ now ≠ "" ∧ cfg.last_daily_run ≠ some today) := by
  rcases hdt : cfg.daily_time with _ | t
  · simp [tick_daily_conv, hdt]
  · simp only [tick_daily_conv, hdt, Option.some.injEq]
    split_ifs with h1 h2 h3
    · simp only [Bool.false_eq_true, false_iff]
      rintro ⟨ht, hne, _⟩
      exact hne (ht.symm.trans h1)
    · simp only [Bool.false_eq_true, false_iff]
      rintro ⟨ht, _, _⟩
      exact h2 ht
    · simp only [Bool.false_eq_true, false_iff]
      rintro ⟨_, _, hlast⟩
      exact hlast h3
    · push_neg at h2
      simp only [true_iff]
      exact ⟨h2, fun he => h1 (h2.symm ▸ he), h3⟩

/-- Every visit either is a no-op or fires and stamps today. -/
lemma tick_cases (cfg : CfgDict) (log : Option (List LogLine))
    (now today ym ymdC cid burl ftok outd : String) :
    tick_daily_conv cfg log now today ym ymdC cid burl ftok outd = ⟨false, cfg, none⟩ ∨
      ((tick_daily_conv cfg log now today ym ymdC cid burl ftok outd).fired = true ∧
        (tick_daily_conv cfg log now today ym ymdC cid burl ftok outd).cfg
          = { cfg with last_daily_run := some today }) := by
  rcases hdt : cfg.daily_time with _ | t
  · left
    simp [tick_daily_conv, hdt]
  · simp only [tick_daily_conv, hdt]
    split_ifs <;> first
      | exact Or.inl rfl
      | exact Or.inr ⟨rfl, rfl⟩

/-- Once `last_daily_run` records today, a visit is a no-op. -/
lemma tick_blocked (cfg : CfgDict) (log : Option (List LogLine))
    (now today ym ymdC cid burl ftok outd : String)
    (h : cfg.last_daily_run = some today) :
    tick_daily_conv cfg log now today ym ymdC cid burl ftok outd = ⟨false, cfg, none⟩ := by
  rcases hdt : cfg.daily_time with _ | t
  · simp [tick_daily_conv, hdt]
  · simp only [tick_daily_conv, hdt]
    split_ifs with h1 h2
    · rfl
    · rfl
    · rfl

/-- A visit whose HH:MM is not the configured minute is a no-op. -/
lemma tick_not_due (cfg : CfgDict) (log : Option (List LogLine))
    (now today ym ymdC cid burl ftok outd t : String)
    (ht : cfg.daily_time = some t) (hneq : t ≠ now) :
    tick_daily_conv cfg log now today ym ymdC cid burl ftok outd = ⟨false, cfg, none⟩ := by
  simp only [tick_daily_conv, ht]
  split_ifs with h1
  · rfl
  · rfl

/-- A visit at exactly the due minute with today unhandled fires. -/
lemma tick_fire (cfg : CfgDict) (log : Option (List LogLine))
    (now today ym ymdC cid burl ftok outd : String)
    (ht : cfg.daily_time = some now) (hne : now ≠ "")
    (hlast : cfg.last_daily_run ≠ some today) :
    tick_daily_conv cfg log now today ym ymdC cid burl ftok outd
      = ⟨true, { cfg with last_daily_run := some today },
          some (summarize_today_per_keyword cfg log false today ym ymdC cid burl ftok outd)⟩ := by
  simp only [tick_daily_conv, ht]
  split_ifs with h1 h2
  · exact absurd h1 hne
  · exact absurd rfl h2
  · rfl

/-- With today already marked done, a whole day of ticks fires nothing and
leaves the config untouched. -/
lemma runTicks_blocked (log : Option (List LogLine))
    (today ym ymdC cid burl ftok outd : String) (cfg : CfgDict)
    (h : cfg.last_daily_run = some today) :
    ∀ ticks : List String,
      runTicks log today ym ymdC cid burl ftok outd cfg ticks = (0, cfg) := by
  intro ticks
  induction ticks with
  | nil => rfl
  | cons s rest ih =>
    simp only [runTicks]
    rw [tick_blocked cfg log s today ym ymdC cid burl ftok outd h]
    simp [ih]

/-- Any day of ticks fires at most once. -/
lemma runTicks_le_one (log : Option (List LogLine))
    (today ym ymdC cid burl ftok outd : String) :
    ∀ (ticks : List String) (cfg : CfgDict),
      (runTicks log today ym ymdC cid burl ftok outd cfg ticks).1 ≤ 1 := by
  intro ticks
  induction ticks with
  | nil => intro cfg; simp [runTicks]
  | cons s rest ih =>
    intro cfg
    simp only [runTicks]
    rcases tick_cases cfg log s today ym ymdC cid burl ftok outd with hskip | ⟨hf, hcfg⟩
    · rw [hskip]
      simpa using ih cfg
    · rw [hf, hcfg]
      rw [runTicks_blocked log today ym ymdC cid burl ftok outd _ rfl rest]
      simp

/-- A day of ticks containing the exact due minute fires exactly once when
today is still unhandled. -/
lemma runTicks_once (log : Option (List LogLine))
    (today ym ymdC cid burl ftok outd t : String) (cfg : CfgDict)
    (ht : cfg.daily_time = some t) (hne : t ≠ "")
    (hlast : cfg.last_daily_run ≠ some today) :
    ∀ ticks : List String, t ∈ ticks →
      (runTicks log today ym ymdC cid burl ftok outd cfg ticks).1 = 1 := by
  intro ticks
  induction ticks with
  | nil => intro h; simp at h
  | cons s rest ih =>
    intro hmem
    simp only [runTicks]
    by_cases hst : t = s
    · subst hst
      rw [tick_fire cfg log t today ym ymdC cid burl ftok outd ht hne hlast]
      rw [runTicks_blocked log today ym ymdC cid burl ftok outd _ rfl rest]
      simp
    · rw [tick_not_due cfg log s today ym ymdC cid burl ftok outd t ht hst]
      have hmem' : t ∈ rest := by
        rcases List.mem_cons.mp hmem with h | h
        · exact absurd h hst
        · exact h
      simpa using ih hmem'

/-- Membership characterization for the per-keyword artifact loop. -/
lemma keywordOutputs_entry (texts : List String) (ym ymdC cid burl ftok outd : String)
    (kws : List String) (e : OutputEntry × String × String) :
    e ∈ keywordOutputs texts ym ymdC cid burl ftok outd kws ↔
      ∃ kw ∈ kws, matchedLines texts kw ≠ [] ∧
        e = (⟨kw, outd ++ "/" ++ ym ++ "/" ++ artifact_filename ymdC kw cid,
              ym ++ "/" ++ artifact_filename ymdC kw cid,
              make_public_url burl ftok (ym ++ "/" ++ artifact_filename ymdC kw cid)⟩,
             outd ++ "/" ++ ym ++ "/" ++ artifact_filename ymdC kw cid,
             joinSep "\n" (matchedLines texts kw) ++ "\n") := by
  simp only [keywordOutputs, List.mem_filterMap]
  constructor
  · rintro ⟨kw, hkw, hf⟩
    refine ⟨kw, hkw, ?_⟩
    by_cases hml : matchedLines texts kw = []
    · simp [hml] at hf
    · rw [if_neg hml] at hf
      exact ⟨hml, (Option.some.inj hf).symm⟩
  · rintro ⟨kw, hkw, hml, rfl⟩
    exact ⟨kw, hkw, by rw [if_neg hml]⟩

/-- A keyword matches some text exactly when its matched-lines list is
non-empty. -/
lemma matchedLines_ne_nil_iff (texts : List String) (kw : String) :
    matchedLines texts kw ≠ [] ↔ ∃ t ∈ texts, strContains t kw = true := by
  constructor
  · intro h
    obtain ⟨x, hx⟩ := List.exists_mem_of_ne_nil _ h
    have := List.mem_filter.mp hx
    exact ⟨x, this.1, this.2⟩
  · rintro ⟨t, ht, hp⟩
    exact List.ne_nil_of_mem (List.mem_filter.mpr ⟨ht, hp⟩)

/-! ### Claims -/

/-- C9: for every conversation id — including ids with no stored
configuration and ids whose stored configuration is unreadable or
malformed — loading the configuration never fails (`load_cfg` is a total
function by construction) and returns a config with defaults: empty
keyword list and daily export disabled (`daily_time = none`). -/
theorem c9_load_cfg_defaults :
    load_cfg .missing = ⟨[], none, none⟩ ∧ load_cfg .corrupt = ⟨[], none, none⟩ ∧
      load_cfg (.dict none none none) = ⟨[], none, none⟩ :=
  ⟨rfl, rfl, rfl⟩

/-- C8: a conversation whose configured keyword set is empty gets the
informational no-keywords outcome — `ok = false` with the user-facing
hint — and zero artifacts (no outputs, no file writes), returned as a
value rather than raised as an error. -/
theorem c8_no_keywords_informational (cfg : CfgDict) (log : Option (List LogLine))
    (manual : Bool) (day ym ymdC cid burl ftok outd : String)
    (h : cfg.keywords = []) :
    summarize_today_per_keyword cfg log manual day ym ymdC cid burl ftok outd
      = ⟨false, noKeywordsHint, [], []⟩ := by
  unfold summarize_today_per_keyword
  rw [h]
  rfl

/-- Witness for C8 at a concrete conversation with no keywords. -/
theorem c8_no_keywords_informational_witness :
    summarize_today_per_keyword ⟨[], some "09:00", none⟩ (some [.record "hello"]) true
      "2025-03-01" "2025-03" "20250301" "C1" "" "" "/d"
      = ⟨false, noKeywordsHint, [], []⟩ :=
  c8_no_keywords_informational ⟨[], some "09:00", none⟩ (some [.record "hello"]) true
    "2025-03-01" "2025-03" "20250301" "C1" "" "" "/d" rfl

/-- C10: with `FILE_TOKEN` configured empty the `/files` route never looks
at the token query parameter — any two requests differing only in the
supplied token get the same response, and every existing artifact inside
the export root is served with its bytes (HTTP 200). -/
theorem c10_empty_token_ignores_token (outd : List String) (rp t1 t2 : String)
    (fs : List String → Option String) :
    download_file "" outd rp t1 fs = download_file "" outd rp t2 fs
    ∧ ∀ body, strIsPre (pathStr outd) (pathStr (resolve_path outd rp)) = true →
        fs (resolve_path outd rp) = some body →
        download_file "" outd rp t1 fs = HttpResponse.ok body := by
  constructor
  · rfl
  · intro body h1 h2
    show serve_target outd rp fs = HttpResponse.ok body
    unfold serve_target
    rw [h1]
    simp [h2]

/-- Witness for C10 at a concrete artifact path with two unrelated token
values. -/
theorem c10_empty_token_ignores_token_witness :
    (strIsPre (pathStr ["d", "exports"])
        (pathStr (resolve_path ["d", "exports"] "2025-03/a.txt")) = true)
    ∧ download_file "" ["d", "exports"] "2025-03/a.txt" "anything"
        (fun p => if p = ["d", "exports", "2025-03", "a.txt"] then some "hello" else none)
      = HttpResponse.ok "hello" :=
  ⟨by decide,
   (c10_empty_token_ignores_token ["d", "exports"] "2025-03/a.txt" "anything" "zzz"
      (fun p => if p = ["d", "exports", "2025-03", "a.txt"] then some "hello" else none)).2
     "hello" (by decide) (by decide)⟩

/-- C1 counterexample: the claim says a token issued for one path verifies
only for that path and only until its ttl.  In the code the issued token
is the static `FILE_TOKEN`: the URL issued for `2025-03/a.txt` carries
`?token=s3cret`, and presenting that same token for the different path
`2025-03/b.txt` is accepted and serves the file — there is no ttl or
path binding at all. -/
theorem c1_static_token_crosses_paths :
    make_public_url "https://h" "s3cret" "2025-03/a.txt"
      = some "https://h/files/2025-03/a.txt?token=s3cret"
    ∧ download_file "s3cret" ["d", "exports"] "2025-03/b.txt" "s3cret"
        (fun p => if p = ["d", "exports", "2025-03", "b.txt"] then some "B" else none)
      = HttpResponse.ok "B" :=
  ⟨by decide, by decide⟩

/-- C1 (amended): download protection is a single static shared secret.
A request is rejected (403) exactly when `FILE_TOKEN` is non-empty and
the supplied token differs from it; acceptance is independent of which
path the token was issued for and of any elapsed time, and the token
encodes no expiry instant and no signature. -/
theorem c1_token_check_is_static_equality (ft : String) (outd : List String)
    (rp tok : String) (fs : List String → Option String) :
    download_file ft outd rp tok fs = HttpResponse.forbidden ↔ (ft ≠ "" ∧ tok ≠ ft) := by
  constructor
  · intro h
    unfold download_file at h
    by_cases hft : ft = ""
    · rw [if_neg (not_not_intro hft)] at h
      exact absurd h (serve_target_ne_forbidden _ _ _)
    · rw [if_pos hft] at h
      by_cases htok : tok = ft
      · rw [if_neg (not_not_intro htok)] at h
        exact absurd h (serve_target_ne_forbidden _ _ _)
      · exact ⟨hft, htok⟩
  · rintro ⟨hft, htok⟩
    unfold download_file
    rw [if_pos hft, if_pos htok]

/-- C7: the claim (and the code's own comment "防止 ../ 逃逸") requires
requests whose canonical target lies outside the export directory to be
rejected.  The check compares rendered path strings with `startswith`
and no trailing separator, so the traversal `../exports_evil/x` resolves
to the sibling directory `/data/exports_evil/x`, passes the check (the
string `/data/exports` is a prefix of `/data/exports_evil/x`), and the
file outside the export root is served. -/
theorem c7_prefix_check_escape :
    download_file "" ["data", "exports"] "../exports_evil/x" ""
        (fun p => if p = ["data", "exports_evil", "x"] then some "secret" else none)
      = HttpResponse.ok "secret"
    ∧ resolve_path ["data", "exports"] "../exports_evil/x" = ["data", "exports_evil", "x"]
    ∧ segPre ["data", "exports"] (resolve_path ["data", "exports"] "../exports_evil/x")
      = false :=
  ⟨by decide, by decide, by decide⟩

/-- C3 counterexample: the claim says a late tick (current time ≥ due
time) still fires.  With daily_time 09:00 and today unhandled, a first
tick at 12:00 — three hours after the threshold — does not fire and
leaves the config unchanged, because the code compares the tick's HH:MM
for equality with daily_time. -/
theorem c3_late_tick_no_fire :
    tick_daily_conv ⟨[.str "a"], some "09:00", none⟩ (some [.record "a"]) "12:00"
        "2025-03-01" "2025-03" "20250301" "C1" "" "" "/d"
      = ⟨false, ⟨[.str "a"], some "09:00", none⟩, none⟩ := by decide

/-- C3 (amended): the due-check is equality, not ≥ — a scheduler visit
fires exactly when the tick's HH:MM equals the non-empty configured
daily_time and `last_daily_run` is not yet today; in particular a tick
at any other minute, however late, never fires. -/
theorem c3_amended_fires_iff_exact_minute (cfg : CfgDict) (log : Option (List LogLine))
    (now today ym ymdC cid burl ftok outd : String) :
    (tick_daily_conv cfg log now today ym ymdC cid burl ftok outd).fired = true
      ↔ (cfg.daily_time = some now ∧ now ≠ "" ∧ cfg.last_daily_run ≠ some today) :=
  tick_fired_iff cfg log now today ym ymdC cid burl ftok outd

/-- C2 counterexample: the claim says any N ticks within the day after
the threshold time yield exactly one scheduled export.  Two ticks at
12:00 and 13:00 — both after the 09:00 threshold — yield zero exports,
because the equality due-check never matches. -/
theorem c2_after_threshold_zero_exports :
    (runTicks (some [.record "a"]) "2025-03-01" "2025-03" "20250301" "C1" "" "" "/d"
        ⟨[.str "a"], some "09:00", none⟩ ["12:00", "13:00"]).1 = 0 := by decide

/-- C2 (amended): once `last_daily_run` records today no tick fires again
that day; any day of ticks fires at most once; and the count is exactly
one when some tick's HH:MM equals the non-empty configured daily_time
and today started unhandled. -/
theorem c2_amended_at_most_once_per_day (cfg : CfgDict) (log : Option (List LogLine))
    (today ym ymdC cid burl ftok outd : String) (ticks : List String) :
    (cfg.last_daily_run = some today →
      (runTicks log today ym ymdC cid burl ftok outd cfg ticks).1 = 0)
    ∧ (runTicks log today ym ymdC cid burl ftok outd cfg ticks).1 ≤ 1
    ∧ ∀ t, cfg.daily_time = some t → t ≠ "" → cfg.last_daily_run ≠ some today →
        t ∈ ticks → (runTicks log today ym ymdC cid burl ftok outd cfg ticks).1 = 1 := by
  refine ⟨?_, runTicks_le_one log today ym ymdC cid burl ftok outd ticks cfg, ?_⟩
  · intro h
    rw [runTicks_blocked log today ym ymdC cid burl ftok outd cfg h ticks]
  · intro t ht hne hlast hmem
    exact runTicks_once log today ym ymdC cid burl ftok outd t cfg ht hne hlast ticks hmem

/-- Witness for C2 (amended): four ticks spanning the 09:00 due minute
fire exactly once. -/
theorem c2_amended_at_most_once_per_day_witness :
    (runTicks (some [.record "a"]) "2025-03-01" "2025-03" "20250301" "C1" "" "" "/d"
        ⟨[.str "a"], some "09:00", none⟩ ["08:00", "09:00", "09:01", "10:00"]).1 = 1 :=
  (c2_amended_at_most_once_per_day ⟨[.str "a"], some "09:00", none⟩ (some [.record "a"])
      "2025-03-01" "2025-03" "20250301" "C1" "" "" "/d"
      ["08:00", "09:00", "09:01", "10:00"]).2.2 "09:00" rfl (by decide) (by decide) (by decide)

/-- C4: whenever a scheduler visit fires it records `last_daily_run =
today`; moreover whether it fires and what it records depend only on
`daily_time` and `last_daily_run` — not on the keyword set or the day's
ledger, hence not on the export result kind (NoMatches and
NoKeywordsConfigured included). -/
theorem c4_fire_marks_day (cfg cfg' : CfgDict) (log log' : Option (List LogLine))
    (now today ym ymdC cid burl ftok outd : String) :
    ((tick_daily_conv cfg log now today ym ymdC cid burl ftok outd).fired = true →
      (tick_daily_conv cfg log now today ym ymdC cid burl ftok outd).cfg.last_daily_run
        = some today)
    ∧ (cfg.daily_time = cfg'.daily_time → cfg.last_daily_run = cfg'.last_daily_run →
        (tick_daily_conv cfg log now today ym ymdC cid burl ftok outd).fired
          = (tick_daily_conv cfg' log' now today ym ymdC cid burl ftok outd).fired
        ∧ (tick_daily_conv cfg log now today ym ymdC cid burl ftok outd).cfg.last_daily_run
          = (tick_daily_conv cfg' log' now today ym ymdC cid burl ftok outd).cfg.last_daily_run) := by
  constructor
  · intro hf
    rcases tick_cases cfg log now today ym ymdC cid burl ftok outd with hskip | ⟨_, hcfg⟩
    · rw [hskip] at hf
      simp at hf
    · rw [hcfg]
  · intro hdt hlr
    have hL := tick_fired_iff cfg log now today ym ymdC cid burl ftok outd
    have hR := tick_fired_iff cfg' log' now today ym ymdC cid burl ftok outd
    rw [hdt, hlr] at hL
    have hfeq : (tick_daily_conv cfg log now today ym ymdC cid burl ftok outd).fired
        = (tick_daily_conv cfg' log' now today ym ymdC cid burl ftok outd).fired := by
      have hiff := hL.trans hR.symm
      cases hb : (tick_daily_conv cfg log now today ym ymdC cid burl ftok outd).fired with
      | true => exact (hiff.mp hb).symm
      | false =>
        cases hb' : (tick_daily_conv cfg' log' now today ym ymdC cid burl ftok outd).fired with
        | true => exact absurd (hiff.mpr hb') (by simp [hb])
        | false => rfl
    refine ⟨hfeq, ?_⟩
    cases hb : (tick_daily_conv cfg log now today ym ymdC cid burl ftok outd).fired with
    | true =>
      have hb' : (tick_daily_conv cfg' log' now today ym ymdC cid burl ftok outd).fired = true :=
        hfeq ▸ hb
      rcases tick_cases cfg log now today ym ymdC cid burl ftok outd with hskip | ⟨_, hcfg⟩
      · rw [hskip] at hb
        simp at hb
      · rcases tick_cases cfg' log' now today ym ymdC cid burl ftok outd with
          hskip' | ⟨_, hcfg'⟩
        · rw [hskip'] at hb'
          simp at hb'
        · rw [hcfg, hcfg']
    | false =>
      have hb' : (tick_daily_conv cfg' log' now today ym ymdC cid burl ftok outd).fired = false :=
        hfeq ▸ hb
      rcases tick_cases cfg log now today ym ymdC cid burl ftok outd with hskip | ⟨hf, _⟩
      · rcases tick_cases cfg' log' now today ym ymdC cid burl ftok outd with
          hskip' | ⟨hf', _⟩
        · rw [hskip, hskip']
          exact hlr
        · rw [hf'] at hb'
          simp at hb'
      · rw [hf] at hb
        simp at hb

/-- Witness for C4 at a conversation with an empty keyword set: the visit
fires (the export outcome is the NoKeywordsConfigured hint) and today is
recorded regardless. -/
theorem c4_fire_marks_day_witness :
    ((tick_daily_conv ⟨[], some "09:00", none⟩ none "09:00" "2025-03-01" "2025-03" "20250301"
        "C1" "" "" "/d").fired = true)
    ∧ (tick_daily_conv ⟨[], some "09:00", none⟩ none "09:00" "2025-03-01" "2025-03" "20250301"
        "C1" "" "" "/d").cfg.last_daily_run = some "2025-03-01" :=
  ⟨by decide,
   (c4_fire_marks_day ⟨[], some "09:00", none⟩ ⟨[], some "09:00", none⟩ none none "09:00"
      "2025-03-01" "2025-03" "20250301" "C1" "" "" "/d").1 (by decide)⟩

/-- C5 counterexample: the claim says an artifact's content is exactly the
newline-joined matching subsequence.  For keyword "a" over the single
logged text "ab" the code writes "ab\n" — the newline-join of the
matched lines followed by one extra trailing newline — which differs
from the plain newline-join "ab". -/
theorem c5_trailing_newline :
    (summarize_today_per_keyword ⟨[.str "a"], none, none⟩ (some [.record "ab"]) true
        "2025-03-01" "2025-03" "20250301" "C1" "" "" "/data/exports").writes
      = [("/data/exports/2025-03/20250301_a_C1.txt", "ab\n")]
    ∧ joinSep "\n" (matchedLines (readTexts [.record "ab"]) "a") = "ab"
    ∧ ("ab\n" : String) ≠ "ab" :=
  ⟨by decide, by decide, by decide⟩

/-- C5 (amended): for every configured keyword the export produces an
artifact exactly when some of the day's texts contains the keyword as a
substring, and the artifact's content is the newline-joined matching
subsequence — original append order, repeats kept — followed by one
trailing newline. -/
theorem c5_artifact_iff_match (texts : List String) (ym ymdC cid burl ftok outd : String)
    (kws : List String) (kw : String) (hmem : kw ∈ kws) :
    ((kw ∈ (keywordOutputs texts ym ymdC cid burl ftok outd kws).map (fun e => e.1.keyword))
      ↔ ∃ t ∈ texts, strContains t kw = true)
    ∧ ∀ e ∈ keywordOutputs texts ym ymdC cid burl ftok outd kws,
        e.1.keyword = kw →
          e.2.2 = joinSep "\n" (texts.filter (fun t => strContains t kw)) ++ "\n" := by
  constructor
  · constructor
    · intro hkw
      rcases List.mem_map.mp hkw with ⟨e, he, hek⟩
      rcases (keywordOutputs_entry texts ym ymdC cid burl ftok outd kws e).mp he with
        ⟨kw', _, hml, rfl⟩
      dsimp only at hek
      subst hek
      exact (matchedLines_ne_nil_iff texts kw').mp hml
    · intro hex
      have hml : matchedLines texts kw ≠ [] := (matchedLines_ne_nil_iff texts kw).mpr hex
      exact List.mem_map.mpr
        ⟨_, (keywordOutputs_entry texts ym ymdC cid burl ftok outd kws _).mpr
            ⟨kw, hmem, hml, rfl⟩, rfl⟩
  · intro e he hek
    rcases (keywordOutputs_entry texts ym ymdC cid burl ftok outd kws e).mp he with
      ⟨kw', _, hml, rfl⟩
    dsimp only at hek
    subst hek
    rfl

/-- Witness for C5 (amended): keyword "a" over the day's texts ["ab"]
yields an artifact. -/
theorem c5_artifact_iff_match_witness :
    ("a" ∈ (["a"] : List String))
    ∧ ("a" ∈ (keywordOutputs ["ab"] "2025-03" "20250301" "C1" "" "" "/d" ["a"]).map
        (fun e => e.1.keyword)) :=
  ⟨by decide,
   (c5_artifact_iff_match ["ab"] "2025-03" "20250301" "C1" "" "" "/d" ["a"] "a"
      (by decide)).1.mpr ⟨"ab", by decide, by decide⟩⟩

/-- C6: exporting is deterministic and overwriting.  Re-running the export
for the same conversation, date and ledger maps the filesystem to the
same state (rerun after run changes nothing), and the contents at every
written artifact path are independent of whatever was there before —
replaced, not appended or accumulated.  The artifact path itself is
`artifact_filename`, a function of (date, keyword, conversation id). -/
theorem c6_export_rerun_idempotent (cfg : CfgDict) (log : Option (List LogLine))
    (manual : Bool) (day ym ymdC cid burl ftok outd : String)
    (fs fs' : String → Option String) :
    (∀ q, runExportFS cfg log manual day ym ymdC cid burl ftok outd
        (runExportFS cfg log manual day ym ymdC cid burl ftok outd fs) q
      = runExportFS cfg log manual day ym ymdC cid burl ftok outd fs q)
    ∧ ∀ p, p ∈ ((summarize_today_per_keyword cfg log manual day ym ymdC cid burl ftok
          outd).writes.map Prod.fst) →
        runExportFS cfg log manual day ym ymdC cid burl ftok outd fs p
          = runExportFS cfg log manual day ym ymdC cid burl ftok outd fs' p := by
  constructor
  · intro q
    by_cases hq : q ∈ ((summarize_today_per_keyword cfg log manual day ym ymdC cid burl ftok
        outd).writes.map Prod.fst)
    · exact applyWrites_mem _ _ _ _ hq
    · unfold runExportFS
      rw [applyWrites_not_mem _ _ _ hq]
  · intro p hp
    exact applyWrites_mem _ _ _ _ hp

/-- Witness for C6: the artifact written for keyword "a" ends in the same
state whether the path previously held nothing or stale content. -/
theorem c6_export_rerun_idempotent_witness :
    ("/data/exports/2025-03/20250301_a_C1.txt" ∈
        ((summarize_today_per_keyword ⟨[.str "a"], none, none⟩ (some [.record "ab"]) true
          "2025-03-01" "2025-03" "20250301" "C1" "" "" "/data/exports").writes.map Prod.fst))
    ∧ runExportFS ⟨[.str "a"], none, none⟩ (some [.record "ab"]) true "2025-03-01" "2025-03"
        "20250301" "C1" "" "" "/data/exports" (fun _ => none)
        "/data/exports/2025-03/20250301_a_C1.txt"
      = runExportFS ⟨[.str "a"], none, none⟩ (some [.record "ab"]) true "2025-03-01" "2025-03"
        "20250301" "C1" "" "" "/data/exports" (fun _ => some "stale")
        "/data/exports/2025-03/20250301_a_C1.txt" :=
  ⟨by decide,
   (c6_export_rerun_idempotent ⟨[.str "a"], none, none⟩ (some [.record "ab"]) true
      "2025-03-01" "2025-03" "20250301" "C1" "" "" "/data/exports"
      (fun _ => none) (fun _ => some "stale")).2 _ (by decide)⟩

end MsgOrg
